import Mathlib

/-!
# Volnoti client (`src/client.c`): volume resolution

A shallow embedding of `get_alsa_volume` and of `main` of the notification
client, up to the point where the pair `(volume, muted)` is fixed, followed
by theorems about the resolution policy.

Conventions of the embedding.

* The option parser (`gopt`) is not modelled: `main` receives the values
  it reads from it (`Options`) and the positional arguments that
  `gopt_sort` leaves in `argv[1 .. argc-1]`.
* The ALSA library is the environment: a `Mixer` records, for one card, the
  result of each library call made by `get_alsa_volume`.
* `int` is 32 bits wide and `long` 64 bits wide (LP64).  Evaluations that
  are undefined in C (a division by zero, a signed overflow, a `%d`
  conversion that does not fit in `int`) are a result of their own,
  `undefined`, so that no theorem depends on what a compiler makes of them.
* `print_usage` never returns (it calls `exit`), so each call of it ends
  the run.
* Lines 170-198 of `main` assign neither `volume` nor `muted`; the
  arguments of the `notify` call of line 199 are the values these
  variables have at line 168.  A run that reaches line 170 is recorded as
  `Outcome.send volume muted`.
-/

namespace Volnoti

/-! ## Machine integers -/

/-- Smallest value of a C `int`. -/
def INT_MIN : Int := -2147483648

/-- Largest value of a C `int`. -/
def INT_MAX : Int := 2147483647

/-- Smallest value of a C `long` (LP64). -/
def LONG_MIN : Int := -9223372036854775808

/-- Largest value of a C `long` (LP64). -/
def LONG_MAX : Int := 9223372036854775807

/-- Whether a mathematical integer is representable in a `long`. -/
def inLong (x : Int) : Bool := decide (LONG_MIN ≤ x) && decide (x ≤ LONG_MAX)

/-- The conversion `(int) x` of a `long`: reduction modulo `2^32` to the
range of `int`. -/
def toInt32 (x : Int) : Int := (x + 2147483648) % 4294967296 - 2147483648

/-! ## `sscanf(text, "%d", &n)` -/

/-- The white-space characters of `isspace` in the C locale. -/
def isspace (c : Char) : Bool :=
  c.toNat = 32 || (9 ≤ c.toNat && c.toNat ≤ 13)

/-- The decimal digits, `isdigit`. -/
def isdigit (c : Char) : Bool :=
  48 ≤ c.toNat && c.toNat ≤ 57

/-- Value of a run of decimal digits, most significant first. -/
def digitsValue (ds : List Char) : Nat :=
  ds.foldl (fun acc c => acc * 10 + (c.toNat - 48)) 0

/-- Result of one `%d` conversion. -/
inductive Scan where
  /-- No digit could be read: `sscanf` returns `0` or `EOF`, not `1`. -/
  | noConversion
  /-- `sscanf` returns `1` and stores `v`. -/
  | value (v : Int)
  /-- The numeral does not fit in `int`: undefined in C. -/
  | overflow
  deriving DecidableEq

/-- An optional sign in front of the digits: whether it is a minus, and
the characters after it. -/
def scanSign : List Char → Bool × List Char
  | c :: rest =>
    if c = '-' then (true, rest)
    else if c = '+' then (false, rest)
    else (false, c :: rest)
  | [] => (false, [])

/-- The conversion `sscanf(text, "%d", &n)`: leading white space is skipped,
an optional sign is read, then the longest run of decimal digits; whatever
follows the digits is left unread and does not make the conversion fail. -/
def sscanf_d (text : String) : Scan :=
  let signed := scanSign (text.toList.dropWhile isspace)
  let ds := signed.2.takeWhile isdigit
  if ds.isEmpty then Scan.noConversion
  else
    let v : Int := if signed.1 then -(digitsValue ds : Int) else (digitsValue ds : Int)
    if INT_MIN ≤ v ∧ v ≤ INT_MAX then Scan.value v else Scan.overflow

/-! ## The ALSA environment and `get_alsa_volume` -/

/-- What the library reports about the simple element found by
`snd_mixer_find_selem`.  The source does not look at the return codes of
the calls that read the range, the level and the switch; the fields are the
values these calls store. -/
structure Elem where
  /-- Lower end of the range, from `snd_mixer_selem_get_playback_volume_range`. -/
  pmin : Int
  /-- Upper end of the range, from `snd_mixer_selem_get_playback_volume_range`. -/
  pmax : Int
  /-- Raw level, from `snd_mixer_selem_get_playback_volume`. -/
  vol : Int
  /-- Result of `snd_mixer_selem_has_playback_switch`. -/
  has_playback_switch : Bool
  /-- Value stored by `snd_mixer_selem_get_playback_switch`. -/
  switch_val : Int
  deriving DecidableEq

/-- What the library does for one card (`"hw:<card>"`). -/
structure Mixer where
  /-- `snd_mixer_open` returns a value `>= 0`. -/
  open_ok : Bool
  /-- `snd_mixer_attach` returns a value `>= 0`. -/
  attach_ok : Bool
  /-- `snd_mixer_selem_register` returns a value `>= 0`. -/
  register_ok : Bool
  /-- `snd_mixer_load` returns a value `>= 0`. -/
  load_ok : Bool
  /-- The element named `"Master"`, index 0, when `snd_mixer_find_selem`
  finds one. -/
  master : Option Elem
  deriving DecidableEq

/-- Result of a call of `get_alsa_volume`. -/
inductive AlsaResult where
  /-- The function returns `-1`. -/
  | error
  /-- The function returns `0` after storing `*volume` and `*muted`. -/
  | ok (volume : Int) (muted : Bool)
  /-- The evaluation is undefined in C. -/
  | undefined
  deriving DecidableEq

/-- The function `get_alsa_volume(card, &volume, &muted)`, lines 32-86. -/
def get_alsa_volume (alsa : Int → Mixer) (card : Int) : AlsaResult :=
  let m := alsa card
  if !m.open_ok then AlsaResult.error
  else if !m.attach_ok then AlsaResult.error
  else if !m.register_ok then AlsaResult.error
  else if !m.load_ok then AlsaResult.error
  else
    match m.master with
    | none => AlsaResult.error
    | some elem =>
      -- `(vol * 100) / (pmax - pmin)` in `long` arithmetic
      let scaled := elem.vol * 100
      let range := elem.pmax - elem.pmin
      if !inLong scaled || !inLong range then AlsaResult.undefined
      else if range = 0 then AlsaResult.undefined -- division by zero
      else if !inLong (Int.tdiv scaled range) then AlsaResult.undefined -- `LONG_MIN / -1`
      else
        let volume := toInt32 (Int.tdiv scaled range)
        let muted :=
          if elem.has_playback_switch then decide (elem.switch_val = 0) else false
        AlsaResult.ok volume muted

/-! ## `main` -/

/-- The values `main` reads from the option parser. -/
structure Options where
  /-- Whether `gopt(options, 'h')` is non-zero. -/
  help : Bool
  /-- Whether `gopt(options, 'v')` is non-zero. -/
  debug : Bool
  /-- Whether `gopt(options, 'm')` is non-zero. -/
  muted : Bool
  /-- Whether `gopt(options, 'a')` is non-zero. -/
  auto_detect : Bool
  /-- The argument of `-c`, `gopt_arg_i(options, 'c', 0)`, when the option
  is given. -/
  card : Option String
  deriving DecidableEq

/-- How a run of `main` ends, as far as the resolution is concerned. -/
inductive Outcome where
  /-- The call `print_usage(argv[0], failure)`: the usage text is printed
  and the process exits, with `EXIT_FAILURE` when `failure` is set. -/
  | usage (failure : Bool)
  /-- The message `Failed to get volume from ALSA card <card>` and
  `return EXIT_FAILURE` (lines 133-134). -/
  | mixerFailure (card : Int)
  /-- Control reaches line 170 with these values of `volume` and `muted`,
  the arguments of the `notify` call. -/
  | send (volume : Int) (muted : Bool)
  /-- The evaluation is undefined in C. -/
  | undefined
  deriving DecidableEq

/-- A run of `main`: its outcome, and the positional arguments that were
handed to `sscanf`, in order. -/
structure Run where
  /-- How the run ends. -/
  outcome : Outcome
  /-- The positional arguments read by `sscanf`. -/
  scanned : List String
  deriving DecidableEq

/-- The variable `card` after lines 113-120: `0` without `-c`, else the
conversion of the option's argument. -/
def card_option (o : Options) : Scan :=
  match o.card with
  | none => Scan.value 0
  | some text => sscanf_d text

/-- Lines 150-154 and 162-166: `sscanf(argv[1], "%d", &volume)` followed by
the range check, with the value of `muted` at that point. -/
def scan_volume (text : String) (muted : Bool) : Run :=
  match sscanf_d text with
  | Scan.noConversion => ⟨Outcome.usage true, [text]⟩
  | Scan.overflow => ⟨Outcome.undefined, [text]⟩
  | Scan.value volume =>
    if volume > 100 ∨ volume < 0 then ⟨Outcome.usage true, [text]⟩
    else ⟨Outcome.send volume muted, [text]⟩

/-- The function `main`, lines 102-168.  `args` is `argv[1 .. argc-1]` after
`gopt_sort`, so `argc = args.length + 1` and `argv[1] = args[0]`. -/
def main (o : Options) (args : List String) (alsa : Int → Mixer) : Run :=
  let argc : Int := args.length + 1
  match card_option o with
  | Scan.noConversion => ⟨Outcome.usage true, []⟩
  | Scan.overflow => ⟨Outcome.undefined, []⟩
  | Scan.value card =>
    if o.help then ⟨Outcome.usage false, []⟩
    else if o.auto_detect then
      match get_alsa_volume alsa card with
      | AlsaResult.error => ⟨Outcome.mixerFailure card, []⟩
      | AlsaResult.undefined => ⟨Outcome.undefined, []⟩
      | AlsaResult.ok volume alsa_muted =>
        ⟨Outcome.send volume (if alsa_muted then true else o.muted), []⟩
    else if o.muted then
      if argc > 2 then ⟨Outcome.usage true, []⟩
      else if argc = 2 then scan_volume (args.getD 0 "") o.muted
      else ⟨Outcome.send 0 o.muted, []⟩
    else
      if argc ≠ 2 then ⟨Outcome.usage true, []⟩
      else scan_volume (args.getD 0 "") o.muted

/-! ## Concrete inputs -/

/-- Options of a run without any flag. -/
def plainOptions : Options := Options.mk false false false false none

/-- Options of a run with `-m` only. -/
def muteOptions : Options := Options.mk false false true false none

/-- Options of a run with `-a`, and `-m` when `mute` is set. -/
def autoOptions (mute : Bool) : Options := Options.mk false false mute true none

/-- A library state in which `snd_mixer_open` fails for every card. -/
def noMixer : Int → Mixer := fun _ => Mixer.mk false false false false none

/-- A library state in which every card has a `"Master"` element with the
given range and raw level, and a playback switch with the given value. -/
def masterMixer (pmin pmax vol switch_val : Int) : Int → Mixer :=
  fun _ => Mixer.mk true true true true (some (Elem.mk pmin pmax vol true switch_val))

/-- The normalisation as the specification words it: the raw level taken
relative to the lower end of the range, times 100, divided by the width of
the range, truncating. -/
def spec_normalize (pmin pmax raw : Int) : Int :=
  Int.tdiv ((raw - pmin) * 100) (pmax - pmin)

/-! ## Decimal text and the conversion -/

theorem digitChar_isdigit (k : Nat) (hk : k < 10) :
    isdigit (Nat.digitChar k) = true ∧ (Nat.digitChar k).toNat - 48 = k ∧
      isspace (Nat.digitChar k) = false ∧ Nat.digitChar k ≠ '-' ∧ Nat.digitChar k ≠ '+' := by
  interval_cases k <;> decide

theorem digitsValue_append_singleton (l : List Char) (c : Char) :
    digitsValue (l ++ [c]) = digitsValue l * 10 + (c.toNat - 48) := by
  simp [digitsValue, List.foldl_append]

theorem toDigitsCore_spec (fuel : Nat) :
    ∀ (n : Nat) (ds : List Char), n < fuel →
      ∃ l : List Char, Nat.toDigitsCore 10 fuel n ds = l ++ ds ∧ l ≠ [] ∧
        (∀ c ∈ l, isdigit c = true ∧ isspace c = false ∧ c ≠ '-' ∧ c ≠ '+') ∧
        digitsValue l = n := by
  induction fuel with
  | zero => intro n ds h; omega
  | succ fuel ih =>
    intro n ds h
    have hd := digitChar_isdigit (n % 10) (Nat.mod_lt _ (by decide))
    simp only [Nat.toDigitsCore]
    by_cases h0 : n / 10 = 0
    · refine ⟨[Nat.digitChar (n % 10)], by simp [h0], by simp, ?_, ?_⟩
      · intro c hc
        simp only [List.mem_singleton] at hc
        subst hc
        exact ⟨hd.1, hd.2.2.1, hd.2.2.2.1, hd.2.2.2.2⟩
      · simp only [digitsValue, List.foldl, hd.2.1]
        omega
    · obtain ⟨l, hl, hne, hall, hval⟩ := ih (n / 10) (Nat.digitChar (n % 10) :: ds) (by omega)
      refine ⟨l ++ [Nat.digitChar (n % 10)], by simp [h0, hl], by simp, ?_, ?_⟩
      · intro c hc
        rcases List.mem_append.mp hc with hc | hc
        · exact hall c hc
        · simp only [List.mem_singleton] at hc
          subst hc
          exact ⟨hd.1, hd.2.2.1, hd.2.2.2.1, hd.2.2.2.2⟩
      · rw [digitsValue_append_singleton, hval, hd.2.1]
        omega


theorem takeWhile_all {p : Char → Bool} (l : List Char) (h : ∀ c ∈ l, p c = true) :
    l.takeWhile p = l := by
  induction l with
  | nil => rfl
  | cons a l ih =>
    have ha := h a (List.mem_cons_self a l)
    simp only [List.takeWhile_cons, ha, if_true]
    rw [ih (fun c hc => h c (List.mem_cons_of_mem a hc))]

theorem sscanf_d_digits (l : List Char) (hne : l ≠ [])
    (hall : ∀ c ∈ l, isdigit c = true ∧ isspace c = false ∧ c ≠ '-' ∧ c ≠ '+')
    (hmax : (digitsValue l : Int) ≤ INT_MAX) :
    sscanf_d (String.mk l) = Scan.value (digitsValue l) := by
  cases l with
  | nil => exact absurd rfl hne
  | cons a t =>
    have ha := hall a (List.mem_cons_self a t)
    have htake : (a :: t).takeWhile isdigit = a :: t :=
      takeWhile_all _ (fun c hc => (hall c hc).1)
    have hmin : INT_MIN ≤ (digitsValue (a :: t) : Int) := by
      have : (0 : Int) ≤ (digitsValue (a :: t) : Int) := Int.ofNat_nonneg _
      unfold INT_MIN
      omega
    simp only [sscanf_d, String.toList, List.dropWhile_cons, ha.2.1, scanSign, ha.2.2.1,
      ha.2.2.2, if_false, htake, List.isEmpty_cons, hmin, hmax, and_self, if_true,
      Bool.false_eq_true]

theorem sscanf_d_neg_digits (l : List Char) (hne : l ≠ [])
    (hall : ∀ c ∈ l, isdigit c = true ∧ isspace c = false ∧ c ≠ '-' ∧ c ≠ '+')
    (hmin : INT_MIN ≤ -(digitsValue l : Int)) :
    sscanf_d (String.mk ('-' :: l)) = Scan.value (-(digitsValue l : Int)) := by
  cases l with
  | nil => exact absurd rfl hne
  | cons a t =>
    have htake : (a :: t).takeWhile isdigit = a :: t :=
      takeWhile_all _ (fun c hc => (hall c hc).1)
    have hmax : -(digitsValue (a :: t) : Int) ≤ INT_MAX := by
      have : (0 : Int) ≤ (digitsValue (a :: t) : Int) := Int.ofNat_nonneg _
      unfold INT_MAX
      omega
    have hsp : isspace '-' = false := by decide
    simp only [sscanf_d, String.toList, List.dropWhile_cons, hsp, scanSign, if_true,
      htake, List.isEmpty_cons, hmin, hmax, and_self, Bool.false_eq_true, if_false]

theorem sscanf_d_repr (n : Nat) (h : (n : Int) ≤ INT_MAX) :
    sscanf_d (toString n) = Scan.value n := by
  obtain ⟨l, hl, hne, hall, hval⟩ := toDigitsCore_spec (n + 1) n [] (Nat.lt_succ_self n)
  have hs : toString n = String.mk l := by
    show Nat.repr n = _
    simp only [Nat.repr, Nat.toDigits, hl, List.append_nil, List.asString]
  rw [hs, sscanf_d_digits l hne hall (by rw [hval]; exact h), hval]

theorem sscanf_d_toString (v : Int) (hmin : INT_MIN ≤ v) (hmax : v ≤ INT_MAX) :
    sscanf_d (toString v) = Scan.value v := by
  cases v with
  | ofNat n => exact sscanf_d_repr n hmax
  | negSucc m =>
    obtain ⟨l, hl, hne, hall, hval⟩ :=
      toDigitsCore_spec (m + 1 + 1) (m + 1) [] (Nat.lt_succ_self _)
    have hs : toString (Int.negSucc m) = String.mk ('-' :: l) := by
      show "-" ++ Nat.repr (m + 1) = _
      simp only [Nat.repr, Nat.toDigits, hl, List.append_nil, List.asString]
      rfl
    have hv : (Int.negSucc m) = -((digitsValue l : Nat) : Int) := by
      rw [hval]; rfl
    rw [hs, sscanf_d_neg_digits l hne hall (by rw [← hv]; exact hmin), ← hv]

/-- The decimal text of an integer holds an optional minus sign and decimal
digits only. -/
theorem toString_chars (v : Int) :
    ∀ c ∈ (toString v).toList, c = '-' ∨ isdigit c = true := by
  cases v with
  | ofNat n =>
    obtain ⟨l, hl, _, hall, _⟩ := toDigitsCore_spec (n + 1) n [] (Nat.lt_succ_self n)
    have hs : toString (Int.ofNat n) = String.mk l := by
      show Nat.repr n = _
      simp only [Nat.repr, Nat.toDigits, hl, List.append_nil, List.asString]
    rw [hs]
    intro c hc
    exact Or.inr (hall c hc).1
  | negSucc m =>
    obtain ⟨l, hl, _, hall, _⟩ :=
      toDigitsCore_spec (m + 1 + 1) (m + 1) [] (Nat.lt_succ_self _)
    have hs : toString (Int.negSucc m) = String.mk ('-' :: l) := by
      show "-" ++ Nat.repr (m + 1) = _
      simp only [Nat.repr, Nat.toDigits, hl, List.append_nil, List.asString]
      rfl
    rw [hs]
    intro c hc
    rcases List.mem_cons.mp hc with h | h
    · exact Or.inl h
    · exact Or.inr (hall c h).1

/-! ## Unfolding `main` -/

/-- Past the option handling of lines 109-125, `main` is the three-way
branch of lines 130-168. -/
theorem main_branches (o : Options) (args : List String) (alsa : Int → Mixer) (card : Int)
    (hcard : card_option o = Scan.value card) (hhelp : o.help = false) :
    main o args alsa =
      if o.auto_detect then
        match get_alsa_volume alsa card with
        | AlsaResult.error => ⟨Outcome.mixerFailure card, []⟩
        | AlsaResult.undefined => ⟨Outcome.undefined, []⟩
        | AlsaResult.ok volume alsa_muted =>
          ⟨Outcome.send volume (if alsa_muted then true else o.muted), []⟩
      else if o.muted then
        if (args.length : Int) + 1 > 2 then ⟨Outcome.usage true, []⟩
        else if (args.length : Int) + 1 = 2 then scan_volume (args.getD 0 "") o.muted
        else ⟨Outcome.send 0 o.muted, []⟩
      else
        if (args.length : Int) + 1 ≠ 2 then ⟨Outcome.usage true, []⟩
        else scan_volume (args.getD 0 "") o.muted := by
  simp only [main, hcard, hhelp, Bool.false_eq_true, if_false]

/-- With one positional argument and no auto-detection, `main` is the scan
of that argument, in the mute branch and in the explicit branch alike. -/
theorem main_single (o : Options) (text : String) (alsa : Int → Mixer) (card : Int)
    (hcard : card_option o = Scan.value card) (hhelp : o.help = false)
    (hauto : o.auto_detect = false) :
    main o [text] alsa = scan_volume text o.muted := by
  rw [main_branches o [text] alsa card hcard hhelp]
  cases hm : o.muted <;> simp [hauto]

/-- The scan of the decimal text of a level in range. -/
theorem scan_volume_valid (v : Int) (muted : Bool) (h0 : 0 ≤ v) (h100 : v ≤ 100) :
    scan_volume (toString v) muted = ⟨Outcome.send v muted, [toString v]⟩ := by
  have hs : sscanf_d (toString v) = Scan.value v :=
    sscanf_d_toString v (by unfold INT_MIN; omega) (by unfold INT_MAX; omega)
  have hr : ¬ (v > 100 ∨ v < 0) := by omega
  simp only [scan_volume, hs, hr, if_false]

/-- The scan of a text that converts to nothing, or to a level out of range. -/
theorem scan_volume_invalid (text : String) (muted : Bool)
    (h : sscanf_d text = Scan.noConversion ∨
      ∃ v : Int, sscanf_d text = Scan.value v ∧ (v < 0 ∨ 100 < v)) :
    scan_volume text muted = ⟨Outcome.usage true, [text]⟩ := by
  rcases h with h | ⟨v, hv, hr⟩
  · simp only [scan_volume, h]
  · have hr2 : v > 100 ∨ v < 0 := by omega
    simp only [scan_volume, hv, hr2, if_true]

/-! ## Theorems -/

/-- C1: in the explicit-volume branch (no `-a`, no `-m`), a single positional
argument that is the decimal text of an integer `v` with `0 ≤ v ≤ 100`
resolves to volume `v`, not muted; this is the pair passed to `notify`. -/
theorem explicit_volume_resolves (o : Options) (alsa : Int → Mixer) (card v : Int)
    (hcard : card_option o = Scan.value card) (hhelp : o.help = false)
    (hauto : o.auto_detect = false) (hmute : o.muted = false)
    (h0 : 0 ≤ v) (h100 : v ≤ 100) :
    main o [toString v] alsa = ⟨Outcome.send v false, [toString v]⟩ := by
  rw [main_single o (toString v) alsa card hcard hhelp hauto, hmute]
  exact scan_volume_valid v false h0 h100

/-- Witness of C1: the argument `37` without flags. -/
theorem explicit_volume_resolves_witness :
    main plainOptions ["37"] noMixer = ⟨Outcome.send 37 false, ["37"]⟩ :=
  explicit_volume_resolves plainOptions noMixer 0 37 rfl rfl rfl rfl (by decide) (by decide)

/-- C2, as stated, fails: the argument `50abc` is the decimal text of no
integer, and yet both the explicit branch and the mute branch accept it as
the level 50; the numeral `4294967346`, an integer above 100, does not fit
in `int` and its conversion gives no usage error either. -/
theorem trailing_text_accepted :
    (∀ v : Int, toString v ≠ "50abc") ∧
      sscanf_d "50abc" = Scan.value 50 ∧
      main plainOptions ["50abc"] noMixer = ⟨Outcome.send 50 false, ["50abc"]⟩ ∧
      main muteOptions ["50abc"] noMixer = ⟨Outcome.send 50 true, ["50abc"]⟩ ∧
      main plainOptions ["4294967346"] noMixer = ⟨Outcome.undefined, ["4294967346"]⟩ := by
  refine ⟨?_, by decide, by decide, by decide, by decide⟩
  intro v hv
  have h := toString_chars v (Char.ofNat 97) (by rw [hv]; decide)
  revert h
  decide

/-- C2, amended: without `-a`, in the mute branch and in the explicit branch
alike, a single positional argument from which `%d` converts nothing, or
converts an integer below 0 or above 100, ends the run with the usage error
after that one scan, and nothing is sent; this covers the decimal text of
every integer of the range of `int` that is below 0 or above 100. -/
theorem invalid_volume_rejected (o : Options) (alsa : Int → Mixer) (card : Int)
    (hcard : card_option o = Scan.value card) (hhelp : o.help = false)
    (hauto : o.auto_detect = false) :
    (∀ text : String,
        (sscanf_d text = Scan.noConversion ∨
          ∃ v : Int, sscanf_d text = Scan.value v ∧ (v < 0 ∨ 100 < v)) →
        main o [text] alsa = ⟨Outcome.usage true, [text]⟩) ∧
      (∀ v : Int, INT_MIN ≤ v → v ≤ INT_MAX → (v < 0 ∨ 100 < v) →
        main o [toString v] alsa = ⟨Outcome.usage true, [toString v]⟩) := by
  constructor
  · intro text h
    rw [main_single o text alsa card hcard hhelp hauto]
    exact scan_volume_invalid text o.muted h
  · intro v hmin hmax hr
    rw [main_single o (toString v) alsa card hcard hhelp hauto]
    exact scan_volume_invalid (toString v) o.muted
      (Or.inr ⟨v, sscanf_d_toString v hmin hmax, hr⟩)

/-- Witness of the amended C2: `abc`, `-5` and `101` in the explicit branch,
`250` in the mute branch. -/
theorem invalid_volume_rejected_witness :
    main plainOptions ["abc"] noMixer = ⟨Outcome.usage true, ["abc"]⟩ ∧
      main plainOptions ["-5"] noMixer = ⟨Outcome.usage true, ["-5"]⟩ ∧
      main plainOptions ["101"] noMixer = ⟨Outcome.usage true, ["101"]⟩ ∧
      main muteOptions ["250"] noMixer = ⟨Outcome.usage true, ["250"]⟩ :=
  ⟨(invalid_volume_rejected plainOptions noMixer 0 rfl rfl rfl).1 "abc" (Or.inl (by decide)),
   (invalid_volume_rejected plainOptions noMixer 0 rfl rfl rfl).2 (-5)
     (by decide) (by decide) (Or.inl (by decide)),
   (invalid_volume_rejected plainOptions noMixer 0 rfl rfl rfl).2 101
     (by decide) (by decide) (Or.inr (by decide)),
   (invalid_volume_rejected muteOptions noMixer 0 rfl rfl rfl).2 250
     (by decide) (by decide) (Or.inr (by decide))⟩

/-- C3: in the auto-detect branch, when `get_alsa_volume` succeeds with
`(level, hw_muted)`, the resolved level is `level` and the resolved mute
flag is `hw_muted` or the user's `-m`, whatever the positional arguments. -/
theorem auto_detect_mute_or (o : Options) (args : List String) (alsa : Int → Mixer)
    (card level : Int) (hw_muted : Bool)
    (hcard : card_option o = Scan.value card) (hhelp : o.help = false)
    (hauto : o.auto_detect = true)
    (hquery : get_alsa_volume alsa card = AlsaResult.ok level hw_muted) :
    main o args alsa = ⟨Outcome.send level (hw_muted || o.muted), []⟩ := by
  rw [main_branches o args alsa card hcard hhelp]
  simp only [hauto, if_true, hquery]
  cases hw_muted <;> simp

/-- Witness of C3: the snapshot `(42, false)` without and with `-m`, and the
snapshot `(10, true)` without `-m`. -/
theorem auto_detect_mute_or_witness :
    get_alsa_volume (masterMixer 0 100 42 1) 0 = AlsaResult.ok 42 false ∧
      main (autoOptions false) [] (masterMixer 0 100 42 1) = ⟨Outcome.send 42 false, []⟩ ∧
      main (autoOptions true) [] (masterMixer 0 100 42 1) = ⟨Outcome.send 42 true, []⟩ ∧
      get_alsa_volume (masterMixer 0 100 10 0) 0 = AlsaResult.ok 10 true ∧
      main (autoOptions false) [] (masterMixer 0 100 10 0) = ⟨Outcome.send 10 true, []⟩ :=
  ⟨by decide,
   auto_detect_mute_or (autoOptions false) [] (masterMixer 0 100 42 1) 0 42 false
     rfl rfl rfl (by decide),
   auto_detect_mute_or (autoOptions true) [] (masterMixer 0 100 42 1) 0 42 false
     rfl rfl rfl (by decide),
   by decide,
   auto_detect_mute_or (autoOptions false) [] (masterMixer 0 100 10 0) 0 10 true
     rfl rfl rfl (by decide)⟩

/-- C4: in the mute branch (`-m`, no `-a`), no positional argument resolves
to `(0, muted)`, the decimal text of an integer `v` with `0 ≤ v ≤ 100` as
single argument resolves to `(v, muted)`, and two or more positional
arguments end the run with the usage error before any of them is scanned. -/
theorem mute_branch_resolves (o : Options) (alsa : Int → Mixer) (card : Int)
    (hcard : card_option o = Scan.value card) (hhelp : o.help = false)
    (hauto : o.auto_detect = false) (hmute : o.muted = true) :
    main o [] alsa = ⟨Outcome.send 0 true, []⟩ ∧
      (∀ v : Int, 0 ≤ v → v ≤ 100 →
        main o [toString v] alsa = ⟨Outcome.send v true, [toString v]⟩) ∧
      (∀ args : List String, 2 ≤ args.length →
        main o args alsa = ⟨Outcome.usage true, []⟩) := by
  refine ⟨?_, ?_, ?_⟩
  · rw [main_branches o [] alsa card hcard hhelp]
    simp [hauto, hmute]
  · intro v h0 h100
    rw [main_single o (toString v) alsa card hcard hhelp hauto, hmute]
    exact scan_volume_valid v true h0 h100
  · intro args hlen
    rw [main_branches o args alsa card hcard hhelp]
    have h : (args.length : Int) + 1 > 2 := by omega
    simp only [hauto, hmute, h, if_true, Bool.false_eq_true, if_false]

/-- Witness of C4: `-m` alone, `-m 64`, and `-m 10 x`. -/
theorem mute_branch_resolves_witness :
    main muteOptions [] noMixer = ⟨Outcome.send 0 true, []⟩ ∧
      main muteOptions ["64"] noMixer = ⟨Outcome.send 64 true, ["64"]⟩ ∧
      main muteOptions ["10", "x"] noMixer = ⟨Outcome.usage true, []⟩ :=
  ⟨(mute_branch_resolves muteOptions noMixer 0 rfl rfl rfl rfl).1,
   (mute_branch_resolves muteOptions noMixer 0 rfl rfl rfl rfl).2.1 64 (by decide) (by decide),
   (mute_branch_resolves muteOptions noMixer 0 rfl rfl rfl rfl).2.2 ["10", "x"] (by decide)⟩

/-- C5, the code at a range that does not start at 0: with the range
`[10, 110]` and the raw level 60, `get_alsa_volume` reports `60`, the
quotient of `60 * 100` by `110 - 10`, where the rescaling relative to the
lower end of the range gives `50`. -/
theorem normalization_ignores_minimum :
    get_alsa_volume (masterMixer 10 110 60 1) 0 = AlsaResult.ok 60 false ∧
      spec_normalize 10 110 60 = 50 := by
  decide

/-- C6, the code at a range of width zero: with the range `[0, 0]` every
library call succeeds and `get_alsa_volume` evaluates the division by
`pmax - pmin = 0`; it does not return `-1`, and `main` reports no mixer
failure. -/
theorem zero_width_range_divides :
    get_alsa_volume (masterMixer 0 0 0 1) 0 = AlsaResult.undefined ∧
      get_alsa_volume (masterMixer 0 0 0 1) 0 ≠ AlsaResult.error ∧
      main (autoOptions false) [] (masterMixer 0 0 0 1) = ⟨Outcome.undefined, []⟩ := by
  decide

/-- C7, the code in the auto-detect branch at a range that does not start
at 0: with the range `[10, 110]` and the raw level at its maximum 110 the
level passed on is `110`, and with the range `[-100, 0]` and the raw level
`-50` it is `-50`. -/
theorem auto_level_out_of_range :
    main (autoOptions false) [] (masterMixer 10 110 110 1) = ⟨Outcome.send 110 false, []⟩ ∧
      main (autoOptions false) [] (masterMixer (-100) 0 (-50) 1) =
        ⟨Outcome.send (-50) false, []⟩ := by
  decide

/-- Without `-a`, a level that is passed on lies in `[0, 100]`: the range
check of lines 153 and 165, and the default `0` of line 156. -/
theorem manual_level_in_range (o : Options) (args : List String) (alsa : Int → Mixer)
    (v : Int) (m : Bool) (hauto : o.auto_detect = false)
    (hsend : (main o args alsa).outcome = Outcome.send v m) : 0 ≤ v ∧ v ≤ 100 := by
  have hscan : ∀ (text : String) (b : Bool),
      (scan_volume text b).outcome = Outcome.send v m → 0 ≤ v ∧ v ≤ 100 := by
    intro text b h
    unfold scan_volume at h
    split at h
    · simp at h
    · simp at h
    · rename_i volume _
      by_cases hr : volume > 100 ∨ volume < 0
      · simp [hr] at h
      · simp only [hr, if_false, Outcome.send.injEq] at h
        omega
  unfold main at hsend
  simp only [hauto, Bool.false_eq_true, if_false] at hsend
  split at hsend
  · simp at hsend
  · simp at hsend
  · split at hsend
    · simp at hsend
    · split at hsend
      · split at hsend
        · simp at hsend
        · split at hsend
          · exact hscan _ _ hsend
          · simp only [Outcome.send.injEq] at hsend
            omega
      · split at hsend
        · simp at hsend
        · exact hscan _ _ hsend

/-- C8: in auto-detect mode, when opening, attaching, registering or loading
the mixer fails, or no `"Master"` element is found, `get_alsa_volume`
returns `-1` and `main` ends with the mixer failure for that card: nothing
is sent, whatever the mute flag and the positional arguments. -/
theorem mixer_failure_fatal (o : Options) (args : List String) (alsa : Int → Mixer)
    (card : Int)
    (hcard : card_option o = Scan.value card) (hhelp : o.help = false)
    (hauto : o.auto_detect = true)
    (hfail : (alsa card).open_ok = false ∨ (alsa card).attach_ok = false ∨
      (alsa card).register_ok = false ∨ (alsa card).load_ok = false ∨
      (alsa card).master = none) :
    get_alsa_volume alsa card = AlsaResult.error ∧
      main o args alsa = ⟨Outcome.mixerFailure card, []⟩ ∧
      ∀ (v : Int) (m : Bool), (main o args alsa).outcome ≠ Outcome.send v m := by
  have hq : get_alsa_volume alsa card = AlsaResult.error := by
    unfold get_alsa_volume
    cases h1 : (alsa card).open_ok <;> cases h2 : (alsa card).attach_ok <;>
      cases h3 : (alsa card).register_ok <;> cases h4 : (alsa card).load_ok <;>
      cases h5 : (alsa card).master <;> simp_all
  have hm : main o args alsa = ⟨Outcome.mixerFailure card, []⟩ := by
    rw [main_branches o args alsa card hcard hhelp]
    simp only [hauto, if_true, hq]
  refine ⟨hq, hm, ?_⟩
  intro v m h
  rw [hm] at h
  exact Outcome.noConfusion h

/-- Witness of C8: `-a -m 50` on a system where `snd_mixer_open` fails, and
`-a` on a card whose mixer loads but has no `"Master"` element. -/
theorem mixer_failure_fatal_witness :
    main (autoOptions true) ["50"] noMixer = ⟨Outcome.mixerFailure 0, []⟩ ∧
      main (autoOptions false) [] (fun _ => Mixer.mk true true true true none) =
        ⟨Outcome.mixerFailure 0, []⟩ :=
  ⟨(mixer_failure_fatal (autoOptions true) ["50"] noMixer 0 rfl rfl rfl (Or.inl rfl)).2.1,
   (mixer_failure_fatal (autoOptions false) [] (fun _ => Mixer.mk true true true true none) 0
     rfl rfl rfl (Or.inr (Or.inr (Or.inr (Or.inr rfl))))).2.1⟩

/-- C9: with `-a`, two runs that differ only in their positional arguments
end the same way, and scan none of them; past the option handling such a
run never ends with the usage error. -/
theorem auto_ignores_positionals (o : Options) (args1 args2 : List String)
    (alsa : Int → Mixer) (hauto : o.auto_detect = true) :
    main o args1 alsa = main o args2 alsa ∧
      (main o args1 alsa).scanned = [] ∧
      ∀ card : Int, card_option o = Scan.value card → o.help = false →
        ∀ failure : Bool, (main o args1 alsa).outcome ≠ Outcome.usage failure := by
  refine ⟨?_, ?_, ?_⟩
  · simp only [main, hauto, if_true]
  · simp only [main, hauto, if_true]
    split
    · rfl
    · rfl
    · split
      · rfl
      · split <;> rfl
  · intro card hcard hhelp failure
    rw [main_branches o args1 alsa card hcard hhelp]
    simp only [hauto, if_true]
    split <;> exact fun h => Outcome.noConfusion h

/-- Witness of C9: `-a` with no argument, and with the arguments `abc 700`. -/
theorem auto_ignores_positionals_witness :
    main (autoOptions false) [] (masterMixer 0 100 42 1) =
      main (autoOptions false) ["abc", "700"] (masterMixer 0 100 42 1) :=
  (auto_ignores_positionals (autoOptions false) [] ["abc", "700"] (masterMixer 0 100 42 1) rfl).1

/-- C10: in the explicit-volume branch (no `-a`, no `-m`), a run with no
positional argument or with two or more ends with the usage error without
scanning any argument, whatever the arguments are; a run that passes a pair
on has exactly one positional argument. -/
theorem explicit_arity (o : Options) (args : List String) (alsa : Int → Mixer) (card : Int)
    (hcard : card_option o = Scan.value card) (hhelp : o.help = false)
    (hauto : o.auto_detect = false) (hmute : o.muted = false) :
    (args.length ≠ 1 → main o args alsa = ⟨Outcome.usage true, []⟩) ∧
      (∀ (v : Int) (m : Bool), (main o args alsa).outcome = Outcome.send v m →
        args.length = 1) := by
  have harity : args.length ≠ 1 → main o args alsa = ⟨Outcome.usage true, []⟩ := by
    intro hlen
    rw [main_branches o args alsa card hcard hhelp]
    have h : (args.length : Int) + 1 ≠ 2 := by omega
    simp only [hauto, hmute, h, Bool.false_eq_true, if_false, ne_eq, not_false_eq_true,
      if_true]
  refine ⟨harity, ?_⟩
  intro v m hsend
  by_contra hlen
  rw [harity hlen] at hsend
  exact Outcome.noConfusion hsend

/-- Witness of C10: no argument, and the two arguments `10 20`. -/
theorem explicit_arity_witness :
    main plainOptions [] noMixer = ⟨Outcome.usage true, []⟩ ∧
      main plainOptions ["10", "20"] noMixer = ⟨Outcome.usage true, []⟩ :=
  ⟨(explicit_arity plainOptions [] noMixer 0 rfl rfl rfl rfl).1 (by decide),
   (explicit_arity plainOptions ["10", "20"] noMixer 0 rfl rfl rfl rfl).1 (by decide)⟩

end Volnoti
